import Mathlib

/-!
Verification of the artworks-table application: a fetch adapter
(`fetchArtworksPage`) that normalizes responses of the Art Institute API,
and the `ArtworksTable` component that owns pagination state, a per-page
selection array, and a cross-page selection map persisted to local storage.

The embedding is shallow: JavaScript objects used as maps with numeric keys
become association lists ordered by ascending key (mirroring the engine's
enumeration order for integer-like keys), `undefined`/`null` distinctions
on raw API fields become nested `Option`s, and the JSON blob written to
local storage becomes an explicit `Json` tree.
-/

/-- A normalized artwork record (`types.ts` / the result of the fetch
adapter).  Fields other than `id` are nullable. -/
structure Artwork where
  id : Nat
  title : Option String
  place_of_origin : Option String
  artist_display : Option String
  inscriptions : Option String
  date_start : Option Int
  date_end : Option Int
deriving DecidableEq, Repr

/-- `type SelectionMap = Record<number, Artwork>`: a JavaScript object used
as a map from artwork id to artwork record.  Integer-like keys enumerate in
ascending order, so the model keeps entries sorted by key. -/
abbrev SelectionMap := List (Nat × Artwork)

/-- `selectedMap[id]` (`undefined` becomes `none`). -/
def SelectionMap.lookup : SelectionMap → Nat → Option Artwork
  | [], _ => none
  | (k, v) :: rest, id => if k = id then some v else SelectionMap.lookup rest id

/-- `copy[id] = row`: insert or overwrite, keeping keys in ascending
enumeration order. -/
def SelectionMap.insert : SelectionMap → Nat → Artwork → SelectionMap
  | [], id, row => [(id, row)]
  | (k, v) :: rest, id, row =>
    if id < k then (id, row) :: (k, v) :: rest
    else if id = k then (id, row) :: rest
    else (k, v) :: SelectionMap.insert rest id row

/-- `delete copy[id]`. -/
def SelectionMap.erase : SelectionMap → Nat → SelectionMap
  | [], _ => []
  | (k, v) :: rest, id =>
    if k = id then SelectionMap.erase rest id else (k, v) :: SelectionMap.erase rest id

/-- `Object.keys(selectedMap)` (as numbers). -/
def SelectionMap.keys (m : SelectionMap) : List Nat := m.map (fun kv => kv.1)

/-- `Object.values(selectedMap)`. -/
def SelectionMap.values (m : SelectionMap) : List Artwork := m.map (fun kv => kv.2)

/-- The initial `useState<SelectionMap>({})` value. -/
def emptySelectionMap : SelectionMap := []

/-! ### Raw API data and the fetch adapter -/

/-- A raw record of the API response's `data` array.  For the nullable
fields, the outer `Option` is `undefined` (field absent) and the inner one
is `null`, so `none` = undefined, `some none` = null, `some (some x)` = a
value. -/
structure RawArtwork where
  id : Nat
  title : Option (Option String)
  place_of_origin : Option (Option String)
  artist_display : Option (Option String)
  inscriptions : Option (Option String)
  date_start : Option (Option Int)
  date_end : Option (Option Int)
deriving DecidableEq, Repr

/-- The `pagination` object of `ArtworkApiResponse`; `total` and `limit`
may themselves be absent or null at runtime (the code guards both with
`??`). -/
structure Pagination where
  total : Option (Option Int)
  limit : Option (Option Int)
deriving DecidableEq, Repr

/-- `ArtworkApiResponse`: `data` may be absent/null (the code guards with
`|| []`), and so may `pagination` (guarded with `?.`). -/
structure ArtworkApiResponse where
  data : Option (List RawArtwork)
  pagination : Option Pagination
deriving DecidableEq, Repr

/-- The observable part of `await fetch(url)`: the `ok` flag and the parsed
JSON body. -/
structure HttpResponse where
  ok : Bool
  json : ArtworkApiResponse
deriving DecidableEq, Repr

/-- The record returned by `fetchArtworksPage`. -/
structure FetchResult where
  items : List Artwork
  total : Int
  per_page : Int
deriving DecidableEq, Repr

/-- The per-record normalization inside `fetchArtworksPage`:
`{ id: d.id, title: d.title ?? null, ... }`.  `x ?? null` collapses
`undefined` to `null`, i.e. the outer `Option` is flattened away with
default `none`. -/
def normalizeRaw (d : RawArtwork) : Artwork :=
  { id := d.id
    title := d.title.getD none
    place_of_origin := d.place_of_origin.getD none
    artist_display := d.artist_display.getD none
    inscriptions := d.inscriptions.getD none
    date_start := d.date_start.getD none
    date_end := d.date_end.getD none }

/-- `json.pagination?.total` / `json.pagination?.limit`: the optional-chain
value before the `??` default. -/
def chainField (p : Option Pagination) (f : Pagination → Option (Option Int)) : Option Int :=
  match p with
  | none => none
  | some pg => (f pg).join

/-- `fetchArtworksPage(page, limit)`, applied to the response the network
produced: throws (`Except.error`) when `!res.ok`, otherwise normalizes
`json.data || []`, `json.pagination?.total ?? 0` and
`json.pagination?.limit ?? limit`. -/
def fetchArtworksPage (res : HttpResponse) (limit : Int) : Except String FetchResult :=
  if res.ok = false then Except.error "Failed to fetch artworks"
  else
    let json := res.json
    let items := (json.data.getD []).map normalizeRaw
    let total := (chainField json.pagination (fun pg => pg.total)).getD 0
    let per_page := (chainField json.pagination (fun pg => pg.limit)).getD limit
    Except.ok { items := items, total := total, per_page := per_page }

/-- Spec-side restatement of the claimed normalization: every field equals
the raw value with undefined/null replaced by null (`Option.join`), and the
id is passed through.  To be compared with `normalizeRaw`, which is
transcribed from the source. -/
def normalizeSpec (d : RawArtwork) : Artwork :=
  { id := d.id
    title := d.title.join
    place_of_origin := d.place_of_origin.join
    artist_display := d.artist_display.join
    inscriptions := d.inscriptions.join
    date_start := d.date_start.join
    date_end := d.date_end.join }

/-! ### The `ArtworksTable` component state and its operations -/

/-- The `useState` cells of `ArtworksTable`. -/
structure ArtworksTableState where
  page : Nat
  rowsPerPage : Nat
  loading : Bool
  items : List Artwork
  totalRecords : Int
  selectedMap : SelectionMap
  visibleSidebar : Bool
  pageSelection : Option (List Artwork)
deriving DecidableEq, Repr

/-- The JavaScript idiom `l.length ? l : null`. -/
def nonEmptyOrNull (l : List Artwork) : Option (List Artwork) :=
  if l.isEmpty then none else some l

/-- The page-selection computed after a successful fetch:
`items.filter((it) => selectedMap[it.id] !== undefined)`, then
`sel.length ? sel : null`. -/
def pageSelectionAfterFetch (fetchedItems : List Artwork) (m : SelectionMap) :
    Option (List Artwork) :=
  nonEmptyOrNull (fetchedItems.filter (fun it => (SelectionMap.lookup m it.id).isSome))

/-- The `.then` handler of the fetch effect: guarded by the `mounted` flag;
when still mounted it stores the fetched items, the total, and the
recomputed page selection. -/
def applyFetchSuccess (mounted : Bool) (fetchedItems : List Artwork) (total : Int)
    (st : ArtworksTableState) : ArtworksTableState :=
  if mounted then
    { st with
      items := fetchedItems
      totalRecords := total
      pageSelection := pageSelectionAfterFetch fetchedItems st.selectedMap }
  else st

/-- The `.catch` handler of the fetch effect: after `console.error(err)` it
sets `items` to `[]`, `totalRecords` to `0` and `pageSelection` to `null`. -/
def onFetchError (st : ArtworksTableState) : ArtworksTableState :=
  { st with items := [], totalRecords := 0, pageSelection := none }

/-- `toggleRow(row, checked)` acting on the selection map. -/
def toggleRow (row : Artwork) (checked : Bool) (prev : SelectionMap) : SelectionMap :=
  if checked then SelectionMap.insert prev row.id row
  else SelectionMap.erase prev row.id

/-- The body of the `setSelectedMap` updater inside `onSelectionChange`:
for each id on the current page, compare membership in the new selection
(`newIds.has(id)`) with membership in `prev`, and add (looking the row up
in `items`) or remove accordingly. -/
def selectionChangeStep (items : List Artwork) (newIds : List Nat) (prev : SelectionMap)
    (next : SelectionMap) (id : Nat) : SelectionMap :=
  let found := newIds.contains id
  let existed := (SelectionMap.lookup prev id).isSome
  if found && !existed then
    match items.find? (fun it => it.id == id) with
    | some row => SelectionMap.insert next id row
    | none => next
  else if !found && existed then SelectionMap.erase next id
  else next

/-- `onSelectionChange(e)` acting on the selection map (`e.value ?? []` is
the `newSelection` argument). -/
def onSelectionChange (items : List Artwork) (newSelection : List Artwork)
    (prev : SelectionMap) : SelectionMap :=
  let newIds := newSelection.map (fun r => r.id)
  let pageIds := items.map (fun it => it.id)
  pageIds.foldl (selectionChangeStep items newIds prev) prev

/-- `onSelectAllPage` acting on the selection map: `next[row.id] = row` for
every row of the current page. -/
def onSelectAllPage (items : List Artwork) (prev : SelectionMap) : SelectionMap :=
  items.foldl (fun next row => SelectionMap.insert next row.id row) prev

/-- `onDeselectAllPage` acting on the selection map: `delete next[row.id]`
for every row of the current page. -/
def onDeselectAllPage (items : List Artwork) (prev : SelectionMap) : SelectionMap :=
  items.foldl (fun next row => SelectionMap.erase next row.id) prev

/-- `removeFromSelection(id)` from the side panel. -/
def removeFromSelection (id : Nat) (prev : SelectionMap) : SelectionMap :=
  SelectionMap.erase prev id

/-- `dtSelection`: the derived selection array handed to the DataTable,
`items.filter((it) => selectedMap[it.id] !== undefined)`. -/
def dtSelection (items : List Artwork) (m : SelectionMap) : List Artwork :=
  items.filter (fun it => (SelectionMap.lookup m it.id).isSome)

/-! ### The side panel -/

/-- `Object.keys(selectedMap).length`, shown on the `Selected:` button and
in the sidebar heading. -/
def selectedCount (m : SelectionMap) : Nat := (SelectionMap.keys m).length

/-- The list rendered in the sidebar: `Object.values(selectedMap)`. -/
def sidebarItems (m : SelectionMap) : List Artwork := SelectionMap.values m

/-- Whether the `No items selected.` message is rendered:
`Object.keys(selectedMap).length === 0`. -/
def noItemsMessageShown (m : SelectionMap) : Bool :=
  (SelectionMap.keys m).length == 0

/-! ### Persistence: JSON and local storage -/

/-- JSON values, as produced by `JSON.stringify`/`JSON.parse`. -/
inductive Json where
  | null : Json
  | num : Int → Json
  | str : String → Json
  | arr : List Json → Json
  | obj : List (String × Json) → Json

/-- Encoding of a nullable string field. -/
def encOptStr : Option String → Json
  | none => Json.null
  | some s => Json.str s

/-- Encoding of a nullable numeric field. -/
def encOptInt : Option Int → Json
  | none => Json.null
  | some n => Json.num n

/-- `JSON.stringify` on one artwork record. -/
def Artwork.toJson (a : Artwork) : Json :=
  Json.obj
    [("id", Json.num a.id),
     ("title", encOptStr a.title),
     ("place_of_origin", encOptStr a.place_of_origin),
     ("artist_display", encOptStr a.artist_display),
     ("inscriptions", encOptStr a.inscriptions),
     ("date_start", encOptInt a.date_start),
     ("date_end", encOptInt a.date_end)]

/-- `JSON.stringify(selectedMap)`: object keys are the decimal strings of
the numeric ids, in enumeration order. -/
def stringifySelection (m : SelectionMap) : Json :=
  Json.obj (m.map (fun kv => (Nat.repr kv.1, Artwork.toJson kv.2)))

/-- Reading back a nullable string field. -/
def decOptStr : Json → Option (Option String)
  | Json.null => some none
  | Json.str s => some (some s)
  | _ => none

/-- Reading back a nullable numeric field. -/
def decOptInt : Json → Option (Option Int)
  | Json.null => some none
  | Json.num n => some (some n)
  | _ => none

/-- Reading back a numeric id. -/
def decNat : Json → Option Nat
  | Json.num n => if n < 0 then none else some n.toNat
  | _ => none

/-- The artwork shape read back by `JSON.parse` (the unchecked
`as SelectionMap` cast): defined on the objects `JSON.stringify`
produces. -/
def Artwork.fromJson? : Json → Option Artwork
  | Json.obj
      [("id", i), ("title", t), ("place_of_origin", p), ("artist_display", ar),
       ("inscriptions", ins), ("date_start", ds), ("date_end", de)] => do
    let id ← decNat i
    let title ← decOptStr t
    let place_of_origin ← decOptStr p
    let artist_display ← decOptStr ar
    let inscriptions ← decOptStr ins
    let date_start ← decOptInt ds
    let date_end ← decOptInt de
    pure { id := id, title := title, place_of_origin := place_of_origin,
           artist_display := artist_display, inscriptions := inscriptions,
           date_start := date_start, date_end := date_end }
  | _ => none

/-- `JSON.parse(raw) as SelectionMap`: recover the numeric keys (object
keys are strings; indexing `parsed[id]` coerces the number back to the same
decimal string) and the artwork records. -/
def parseSelection : Json → Option SelectionMap
  | Json.obj fields =>
    fields.mapM (fun kv => do
      let k ← String.toNat? kv.1
      let a ← Artwork.fromJson? kv.2
      pure (k, a))
  | _ => none

/-- `const STORAGE_KEY = "selected_artworks_map_v1"`. -/
def STORAGE_KEY : String := "selected_artworks_map_v1"

/-- The persist effect: `localStorage.setItem(STORAGE_KEY,
JSON.stringify(selectedMap))`.  Local storage is modeled as a map from keys
to stored JSON blobs. -/
def persistEffect (store : String → Option Json) (m : SelectionMap) :
    String → Option Json :=
  fun k => if k = STORAGE_KEY then some (stringifySelection m) else store k

/-- The mount-time load effect: read `STORAGE_KEY`; when present, parse it
(`none` models both an absent blob and the swallowed parse failure, in
which case `selectedMap` keeps its previous value). -/
def loadEffect (store : String → Option Json) : Option SelectionMap :=
  match store STORAGE_KEY with
  | none => none
  | some j => parseSelection j

/-- The invariant implicit in `SelectionMap`: every stored record sits
under its own id. -/
def SelectionMapInv (m : SelectionMap) : Prop :=
  ∀ k v, SelectionMap.lookup m k = some v → v.id = k

/-! ### Basic lemmas about the selection map -/

theorem SelectionMap.lookup_insert (m : SelectionMap) (k : Nat) (v : Artwork) (j : Nat) :
    SelectionMap.lookup (SelectionMap.insert m k v) j =
      if j = k then some v else SelectionMap.lookup m j := by
  induction m with
  | nil =>
    by_cases h : j = k
    · subst h; simp [SelectionMap.insert, SelectionMap.lookup]
    · have h2 : ¬k = j := fun hh => h hh.symm
      simp [SelectionMap.insert, SelectionMap.lookup, h, h2]
  | cons kv rest ih =>
    obtain ⟨k1, v1⟩ := kv
    simp only [SelectionMap.insert]
    by_cases h1 : k < k1
    · rw [if_pos h1]
      by_cases h2 : j = k
      · subst h2; simp [SelectionMap.lookup]
      · have h2b : ¬k = j := fun hh => h2 hh.symm
        simp [SelectionMap.lookup, h2, h2b]
    · rw [if_neg h1]
      by_cases h2 : k = k1
      · subst h2
        rw [if_pos rfl]
        by_cases h3 : j = k
        · subst h3; simp [SelectionMap.lookup]
        · have h3b : ¬k = j := fun hh => h3 hh.symm
          simp [SelectionMap.lookup, h3, h3b]
      · rw [if_neg h2]
        simp only [SelectionMap.lookup, ih]
        by_cases h3 : j = k
        · have hne : ¬k1 = k := by omega
          simp [h3, hne]
        · simp [h3]

theorem SelectionMap.lookup_erase (m : SelectionMap) (k : Nat) (j : Nat) :
    SelectionMap.lookup (SelectionMap.erase m k) j =
      if j = k then none else SelectionMap.lookup m j := by
  induction m with
  | nil => by_cases h : j = k <;> simp [SelectionMap.erase, SelectionMap.lookup, h]
  | cons kv rest ih =>
    obtain ⟨k1, v1⟩ := kv
    simp only [SelectionMap.erase]
    by_cases h1 : k1 = k
    · subst h1
      rw [if_pos rfl, ih]
      by_cases h2 : j = k1
      · simp [h2]
      · have hne : ¬k1 = j := fun hh => h2 hh.symm
        simp [SelectionMap.lookup, h2, hne]
    · rw [if_neg h1]
      simp only [SelectionMap.lookup, ih]
      by_cases h2 : k1 = j
      · have hne : ¬j = k := by omega
        simp [h2, hne]
      · simp [h2]

/-- C1: the rows that appear checked on the current page are exactly the
page's items whose id is a key of the selection map — both for the derived
`dtSelection` array and for the `pageSelection` computed after a fetch. -/
theorem checked_rows_eq_page_inter_selection (items : List Artwork) (m : SelectionMap)
    (it : Artwork) :
    (it ∈ dtSelection items m ↔
        it ∈ items ∧ (SelectionMap.lookup m it.id).isSome = true)
    ∧ (it ∈ (pageSelectionAfterFetch items m).getD [] ↔
        it ∈ items ∧ (SelectionMap.lookup m it.id).isSome = true) := by
  constructor
  · simp [dtSelection, List.mem_filter]
  · unfold pageSelectionAfterFetch nonEmptyOrNull
    by_cases h : (items.filter (fun it => (SelectionMap.lookup m it.id).isSome)).isEmpty
    · rw [if_pos h]
      simp only [Option.getD_none, List.not_mem_nil, false_iff]
      rintro ⟨h1, h2⟩
      have hmem : it ∈ items.filter (fun it => (SelectionMap.lookup m it.id).isSome) :=
        List.mem_filter.mpr ⟨h1, h2⟩
      rw [List.isEmpty_iff] at h
      rw [h] at hmem
      exact List.not_mem_nil it hmem
    · rw [if_neg h]
      simp [List.mem_filter]

/-- C7: a fetch that resolves after the effect's cleanup has run (the
`mounted` flag is false) leaves the component state — in particular
`items`, `totalRecords` and `pageSelection` — unchanged. -/
theorem stale_fetch_discarded (fetchedItems : List Artwork) (total : Int)
    (st : ArtworksTableState) : applyFetchSuccess false fetchedItems total st = st := rfl

/-- C8: the sidebar renders one entry per selected id (the values of the
map, as many as there are keys), and the `No items selected.` message shows
exactly when the selection map is empty. -/
theorem sidebar_shows_selection (m : SelectionMap) :
    (sidebarItems m).length = selectedCount m
    ∧ (noItemsMessageShown m = true ↔ m = emptySelectionMap)
    ∧ (noItemsMessageShown m = true ↔ sidebarItems m = []) := by
  refine ⟨?_, ?_, ?_⟩
  · simp [sidebarItems, selectedCount, SelectionMap.values, SelectionMap.keys]
  · cases m <;> simp [noItemsMessageShown, SelectionMap.keys, emptySelectionMap]
  · cases m <;>
      simp [noItemsMessageShown, sidebarItems, SelectionMap.values, SelectionMap.keys]

/-- A concrete artwork used in counterexamples and witnesses. -/
def sampleArtwork : Artwork :=
  { id := 1, title := some "A", place_of_origin := none, artist_display := none,
    inscriptions := none, date_start := some 1900, date_end := none }

/-- A concrete component state with a nonempty page, for exercising the
fetch-error handler. -/
def sampleErrorState : ArtworksTableState :=
  { page := 2, rowsPerPage := 10, loading := true, items := [sampleArtwork],
    totalRecords := 5, selectedMap := [(1, sampleArtwork)], visibleSidebar := false,
    pageSelection := some [sampleArtwork] }

/-- C6 counterexample: the `.catch` handler is not a pure console log — on
a state with a nonempty page it changes the state (it clears `items`,
`totalRecords` and `pageSelection`). -/
theorem fetch_error_handler_acts : onFetchError sampleErrorState ≠ sampleErrorState := by
  decide

/-- C6 amended: when a page fetch fails, the handler logs the error and in
addition resets `items` to the empty list, `totalRecords` to 0 and
`pageSelection` to null; every other piece of state — in particular the
cross-page selection map — is left unchanged, and no retry or other
recovery is attempted. -/
theorem fetch_error_handler_resets (st : ArtworksTableState) :
    (onFetchError st).items = []
    ∧ (onFetchError st).totalRecords = 0
    ∧ (onFetchError st).pageSelection = none
    ∧ (onFetchError st).selectedMap = st.selectedMap
    ∧ (onFetchError st).page = st.page
    ∧ (onFetchError st).rowsPerPage = st.rowsPerPage
    ∧ (onFetchError st).loading = st.loading
    ∧ (onFetchError st).visibleSidebar = st.visibleSidebar :=
  ⟨rfl, rfl, rfl, rfl, rfl, rfl, rfl, rfl⟩

/-! ### The semantics of `onSelectionChange` on the selection map -/

theorem nat_contains_iff (l : List Nat) (a : Nat) : l.contains a = true ↔ a ∈ l := by
  simp [List.contains]

/-- What the `onSelectionChange` updater leaves at key `j` once `j` has
been processed: present iff `j` is in the new selection, keeping the
previous record when one existed and otherwise the first page row with
that id. -/
def selectionTarget (items : List Artwork) (newIds : List Nat) (prev : SelectionMap)
    (j : Nat) : Option Artwork :=
  if newIds.contains j then
    if (SelectionMap.lookup prev j).isSome then SelectionMap.lookup prev j
    else items.find? (fun it => it.id == j)
  else none

theorem isSome_false_eq_none {α : Type} (o : Option α) (h : o.isSome = false) : o = none := by
  cases o with
  | none => rfl
  | some v => simp [Option.isSome] at h

theorem selectionChangeStep_lookup_self (items : List Artwork) (newIds : List Nat)
    (prev acc : SelectionMap) (id : Nat)
    (hacc : SelectionMap.lookup acc id = selectionTarget items newIds prev id
        ∨ SelectionMap.lookup acc id = SelectionMap.lookup prev id) :
    SelectionMap.lookup (selectionChangeStep items newIds prev acc id) id =
      selectionTarget items newIds prev id := by
  cases hf : newIds.contains id with
  | true =>
    have hfm : id ∈ newIds := (nat_contains_iff newIds id).mp hf
    cases he : (SelectionMap.lookup prev id).isSome with
    | true =>
      have hstep : selectionChangeStep items newIds prev acc id = acc := by
        simp [selectionChangeStep, hf, hfm, he]
      have htgt : selectionTarget items newIds prev id = SelectionMap.lookup prev id := by
        simp [selectionTarget, hf, hfm, he]
      rw [hstep, htgt]
      rcases hacc with h | h
      · rw [h, htgt]
      · exact h
    | false =>
      have hprevnone : SelectionMap.lookup prev id = none := isSome_false_eq_none _ he
      have htgt : selectionTarget items newIds prev id =
          items.find? (fun it => it.id == id) := by
        simp [selectionTarget, hf, hfm, he]
      cases hfind : items.find? (fun it => it.id == id) with
      | some row =>
        have hstep : selectionChangeStep items newIds prev acc id =
            SelectionMap.insert acc id row := by
          simp [selectionChangeStep, hf, hfm, he, hfind]
        rw [hstep, SelectionMap.lookup_insert, if_pos rfl, htgt, hfind]
      | none =>
        have hstep : selectionChangeStep items newIds prev acc id = acc := by
          simp [selectionChangeStep, hf, hfm, he, hfind]
        rw [hstep, htgt, hfind]
        rcases hacc with h | h
        · rw [h, htgt, hfind]
        · rw [h, hprevnone]
  | false =>
    have hfm : id ∉ newIds := fun hm => by
      rw [(nat_contains_iff newIds id).mpr hm] at hf
      exact Bool.noConfusion hf
    have htgt : selectionTarget items newIds prev id = none := by
      simp [selectionTarget, hf, hfm]
    cases he : (SelectionMap.lookup prev id).isSome with
    | true =>
      have hstep : selectionChangeStep items newIds prev acc id =
          SelectionMap.erase acc id := by
        simp [selectionChangeStep, hf, hfm, he]
      rw [hstep, SelectionMap.lookup_erase, if_pos rfl, htgt]
    | false =>
      have hprevnone : SelectionMap.lookup prev id = none := isSome_false_eq_none _ he
      have hstep : selectionChangeStep items newIds prev acc id = acc := by
        simp [selectionChangeStep, hf, hfm, he]
      rw [hstep, htgt]
      rcases hacc with h | h
      · rw [h, htgt]
      · rw [h, hprevnone]

theorem selectionChangeStep_lookup_other (items : List Artwork) (newIds : List Nat)
    (prev acc : SelectionMap) (id j : Nat) (hne : j ≠ id) :
    SelectionMap.lookup (selectionChangeStep items newIds prev acc id) j =
      SelectionMap.lookup acc j := by
  unfold selectionChangeStep
  cases hf : newIds.contains id <;> cases he : (SelectionMap.lookup prev id).isSome <;>
    simp only [Bool.not_true, Bool.not_false, Bool.and_false, Bool.and_true, Bool.true_and,
      Bool.false_and, ite_true, ite_false]
  · rfl
  · simp [SelectionMap.lookup_erase, hne]
  · cases hfind : items.find? (fun it => it.id == id) with
    | some row => simp [SelectionMap.lookup_insert, hne]
    | none => rfl
  · rfl

theorem selectionChangeFold_lookup (items : List Artwork) (newIds : List Nat)
    (prev : SelectionMap) :
    ∀ (L : List Nat) (acc : SelectionMap),
      (∀ j, SelectionMap.lookup acc j = selectionTarget items newIds prev j
          ∨ SelectionMap.lookup acc j = SelectionMap.lookup prev j) →
      ∀ j, SelectionMap.lookup (L.foldl (selectionChangeStep items newIds prev) acc) j =
        if L.contains j then selectionTarget items newIds prev j
        else SelectionMap.lookup acc j
  | [], acc, _, j => by simp
  | id :: L, acc, hacc, j => by
    rw [List.foldl_cons]
    have hacc2 : ∀ j2, SelectionMap.lookup (selectionChangeStep items newIds prev acc id) j2 =
        selectionTarget items newIds prev j2
        ∨ SelectionMap.lookup (selectionChangeStep items newIds prev acc id) j2 =
          SelectionMap.lookup prev j2 := by
      intro j2
      by_cases hj2 : j2 = id
      · subst hj2
        exact Or.inl (selectionChangeStep_lookup_self items newIds prev acc j2 (hacc j2))
      · rw [selectionChangeStep_lookup_other items newIds prev acc id j2 hj2]
        exact hacc j2
    rw [selectionChangeFold_lookup items newIds prev L _ hacc2 j]
    by_cases hL : L.contains j
    · rw [if_pos hL, if_pos (by simp [(nat_contains_iff L j).mp hL])]
    · rw [if_neg hL]
      by_cases hj : j = id
      · subst hj
        rw [if_pos (by simp), selectionChangeStep_lookup_self items newIds prev acc j (hacc j)]
      · rw [selectionChangeStep_lookup_other items newIds prev acc id j hj,
          if_neg (by
            simp only [List.contains_cons, Bool.or_eq_true, beq_iff_eq]
            rintro (h | h)
            · exact hj h
            · exact hL h)]

theorem onSelectionChange_lookup (items newSelection : List Artwork) (prev : SelectionMap)
    (j : Nat) :
    SelectionMap.lookup (onSelectionChange items newSelection prev) j =
      if (items.map (fun it => it.id)).contains j
      then selectionTarget items (newSelection.map (fun r => r.id)) prev j
      else SelectionMap.lookup prev j := by
  unfold onSelectionChange
  exact selectionChangeFold_lookup items (newSelection.map (fun r => r.id)) prev
    (items.map (fun it => it.id)) prev (fun _ => Or.inr rfl) j

theorem onSelectAllPage_lookup_frame :
    ∀ (items : List Artwork) (prev : SelectionMap) (k : Nat),
      k ∉ items.map (fun it => it.id) →
      SelectionMap.lookup (onSelectAllPage items prev) k = SelectionMap.lookup prev k
  | [], _, _, _ => rfl
  | row :: rest, prev, k, hk => by
    simp only [List.map_cons, List.mem_cons, not_or] at hk
    have ih := onSelectAllPage_lookup_frame rest (SelectionMap.insert prev row.id row) k hk.2
    unfold onSelectAllPage at ih ⊢
    rw [List.foldl_cons, ih, SelectionMap.lookup_insert, if_neg hk.1]

theorem onDeselectAllPage_lookup_frame :
    ∀ (items : List Artwork) (prev : SelectionMap) (k : Nat),
      k ∉ items.map (fun it => it.id) →
      SelectionMap.lookup (onDeselectAllPage items prev) k = SelectionMap.lookup prev k
  | [], _, _, _ => rfl
  | row :: rest, prev, k, hk => by
    simp only [List.map_cons, List.mem_cons, not_or] at hk
    have ih := onDeselectAllPage_lookup_frame rest (SelectionMap.erase prev row.id) k hk.2
    unfold onDeselectAllPage at ih ⊢
    rw [List.foldl_cons, ih, SelectionMap.lookup_erase, if_neg hk.1]

/-- C2: after `onSelectionChange`, an id that occurs on the current page is
a key of the resulting map exactly when it occurs in the event's new
selection array, and an id newly added maps to the (first) page item with
that id. -/
theorem onSelectionChange_syncs_page_ids (items newSelection : List Artwork)
    (prev : SelectionMap) (id : Nat) (hid : id ∈ items.map (fun it => it.id)) :
    ((SelectionMap.lookup (onSelectionChange items newSelection prev) id).isSome = true ↔
        id ∈ newSelection.map (fun r => r.id))
    ∧ (id ∈ newSelection.map (fun r => r.id) → SelectionMap.lookup prev id = none →
        SelectionMap.lookup (onSelectionChange items newSelection prev) id =
          items.find? (fun it => it.id == id)) := by
  have hc : (items.map (fun it => it.id)).contains id = true := (nat_contains_iff _ _).mpr hid
  have hlook := onSelectionChange_lookup items newSelection prev id
  rw [if_pos hc] at hlook
  have hfind : (items.find? (fun it => it.id == id)).isSome = true := by
    rw [List.find?_isSome]
    obtain ⟨it, hit, hide⟩ := List.mem_map.mp hid
    exact ⟨it, hit, by simp [hide]⟩
  constructor
  · rw [hlook]
    unfold selectionTarget
    by_cases hn : id ∈ newSelection.map (fun r => r.id)
    · rw [if_pos ((nat_contains_iff _ _).mpr hn)]
      by_cases hp : (SelectionMap.lookup prev id).isSome = true
      · rw [if_pos hp]; simp [hp, hn]
      · rw [if_neg hp]; simp [hfind, hn]
    · rw [if_neg (fun hcc => hn ((nat_contains_iff _ _).mp hcc))]
      simp [hn]
  · intro hn hp
    rw [hlook]
    unfold selectionTarget
    rw [if_pos ((nat_contains_iff _ _).mpr hn), hp]
    simp

/-- A second concrete artwork for witnesses. -/
def sampleArtwork2 : Artwork :=
  { id := 2, title := none, place_of_origin := some "NL", artist_display := none,
    inscriptions := none, date_start := none, date_end := some 1700 }

theorem onSelectionChange_syncs_page_ids_witness :
    ((SelectionMap.lookup
        (onSelectionChange [sampleArtwork, sampleArtwork2] [sampleArtwork]
          emptySelectionMap) 1).isSome = true ↔
      (1 : Nat) ∈ [sampleArtwork].map (fun r => r.id))
    ∧ ((1 : Nat) ∈ [sampleArtwork].map (fun r => r.id) →
        SelectionMap.lookup emptySelectionMap 1 = none →
        SelectionMap.lookup
          (onSelectionChange [sampleArtwork, sampleArtwork2] [sampleArtwork]
            emptySelectionMap) 1 =
          [sampleArtwork, sampleArtwork2].find? (fun it => it.id == 1)) :=
  onSelectionChange_syncs_page_ids [sampleArtwork, sampleArtwork2] [sampleArtwork]
    emptySelectionMap 1 (by decide)

/-- C3: the three page-scoped operations leave every entry whose id is not
among the current page's items untouched — the map is a genuine cross-page
selection set. -/
theorem crossPage_selections_untouched (items newSelection : List Artwork)
    (prev : SelectionMap) (k : Nat) (hk : k ∉ items.map (fun it => it.id)) :
    SelectionMap.lookup (onSelectionChange items newSelection prev) k =
      SelectionMap.lookup prev k
    ∧ SelectionMap.lookup (onSelectAllPage items prev) k = SelectionMap.lookup prev k
    ∧ SelectionMap.lookup (onDeselectAllPage items prev) k =
      SelectionMap.lookup prev k := by
  refine ⟨?_, onSelectAllPage_lookup_frame items prev k hk,
    onDeselectAllPage_lookup_frame items prev k hk⟩
  rw [onSelectionChange_lookup, if_neg (fun hc => hk ((nat_contains_iff _ _).mp hc))]

theorem crossPage_selections_untouched_witness :
    SelectionMap.lookup
        (onSelectionChange [sampleArtwork] [] [(7, sampleArtwork2)]) 7 =
      SelectionMap.lookup [(7, sampleArtwork2)] 7
    ∧ SelectionMap.lookup (onSelectAllPage [sampleArtwork] [(7, sampleArtwork2)]) 7 =
      SelectionMap.lookup [(7, sampleArtwork2)] 7
    ∧ SelectionMap.lookup (onDeselectAllPage [sampleArtwork] [(7, sampleArtwork2)]) 7 =
      SelectionMap.lookup [(7, sampleArtwork2)] 7 :=
  crossPage_selections_untouched [sampleArtwork] [] [(7, sampleArtwork2)] 7 (by decide)

/-! ### The id-key invariant of the selection map -/

theorem SelectionMapInv.insert (m : SelectionMap) (k : Nat) (v : Artwork) (hv : v.id = k)
    (hm : SelectionMapInv m) : SelectionMapInv (SelectionMap.insert m k v) := by
  intro k2 v2 h
  rw [SelectionMap.lookup_insert] at h
  by_cases hk : k2 = k
  · rw [if_pos hk] at h
    injection h with h2
    rw [← h2, hv, hk]
  · rw [if_neg hk] at h
    exact hm k2 v2 h

theorem SelectionMapInv.erase (m : SelectionMap) (k : Nat) (hm : SelectionMapInv m) :
    SelectionMapInv (SelectionMap.erase m k) := by
  intro k2 v2 h
  rw [SelectionMap.lookup_erase] at h
  by_cases hk : k2 = k
  · rw [if_pos hk] at h
    exact Option.noConfusion h
  · rw [if_neg hk] at h
    exact hm k2 v2 h

theorem selectionChangeStep_inv (items : List Artwork) (newIds : List Nat)
    (prev acc : SelectionMap) (id : Nat) (hacc : SelectionMapInv acc) :
    SelectionMapInv (selectionChangeStep items newIds prev acc id) := by
  cases hf : newIds.contains id with
  | true =>
    have hfm : id ∈ newIds := (nat_contains_iff newIds id).mp hf
    cases he : (SelectionMap.lookup prev id).isSome with
    | true =>
      have hstep : selectionChangeStep items newIds prev acc id = acc := by
        simp [selectionChangeStep, hf, hfm, he]
      rw [hstep]; exact hacc
    | false =>
      cases hfind : items.find? (fun it => it.id == id) with
      | some row =>
        have hrow : row.id = id := by simpa using List.find?_some hfind
        have hstep : selectionChangeStep items newIds prev acc id =
            SelectionMap.insert acc id row := by
          simp [selectionChangeStep, hf, hfm, he, hfind]
        rw [hstep]
        exact SelectionMapInv.insert acc id row hrow hacc
      | none =>
        have hstep : selectionChangeStep items newIds prev acc id = acc := by
          simp [selectionChangeStep, hf, hfm, he, hfind]
        rw [hstep]; exact hacc
  | false =>
    have hfm : id ∉ newIds := fun hm => by
      rw [(nat_contains_iff newIds id).mpr hm] at hf
      exact Bool.noConfusion hf
    cases he : (SelectionMap.lookup prev id).isSome with
    | true =>
      have hstep : selectionChangeStep items newIds prev acc id =
          SelectionMap.erase acc id := by
        simp [selectionChangeStep, hf, hfm, he]
      rw [hstep]
      exact SelectionMapInv.erase acc id hacc
    | false =>
      have hstep : selectionChangeStep items newIds prev acc id = acc := by
        simp [selectionChangeStep, hf, hfm, he]
      rw [hstep]; exact hacc

theorem selectionChangeFold_inv (items : List Artwork) (newIds : List Nat)
    (prev : SelectionMap) :
    ∀ (L : List Nat) (acc : SelectionMap), SelectionMapInv acc →
      SelectionMapInv (L.foldl (selectionChangeStep items newIds prev) acc)
  | [], _, h => h
  | id :: L, acc, h => by
    rw [List.foldl_cons]
    exact selectionChangeFold_inv items newIds prev L _
      (selectionChangeStep_inv items newIds prev acc id h)

theorem onSelectAllPage_inv :
    ∀ (items : List Artwork) (prev : SelectionMap), SelectionMapInv prev →
      SelectionMapInv (onSelectAllPage items prev)
  | [], _, h => h
  | row :: rest, prev, h => by
    have ih := onSelectAllPage_inv rest (SelectionMap.insert prev row.id row)
      (SelectionMapInv.insert prev row.id row rfl h)
    unfold onSelectAllPage at ih ⊢
    rw [List.foldl_cons]
    exact ih

theorem onDeselectAllPage_inv :
    ∀ (items : List Artwork) (prev : SelectionMap), SelectionMapInv prev →
      SelectionMapInv (onDeselectAllPage items prev)
  | [], _, h => h
  | row :: rest, prev, h => by
    have ih := onDeselectAllPage_inv rest (SelectionMap.erase prev row.id)
      (SelectionMapInv.erase prev row.id h)
    unfold onDeselectAllPage at ih ⊢
    rw [List.foldl_cons]
    exact ih

/-- C9: every selection-map operation reachable from the UI preserves the
invariant that each stored artwork record sits under its own id. -/
theorem selection_ops_preserve_id_key_inv (items newSelection : List Artwork)
    (prev : SelectionMap) (row : Artwork) (checked : Bool) (rid : Nat)
    (hprev : SelectionMapInv prev) :
    SelectionMapInv (onSelectionChange items newSelection prev)
    ∧ SelectionMapInv (onSelectAllPage items prev)
    ∧ SelectionMapInv (onDeselectAllPage items prev)
    ∧ SelectionMapInv (removeFromSelection rid prev)
    ∧ SelectionMapInv (toggleRow row checked prev) := by
  refine ⟨?_, onSelectAllPage_inv items prev hprev, onDeselectAllPage_inv items prev hprev,
    SelectionMapInv.erase prev rid hprev, ?_⟩
  · unfold onSelectionChange
    exact selectionChangeFold_inv items _ prev _ prev hprev
  · unfold toggleRow
    cases checked with
    | true => simpa using SelectionMapInv.insert prev row.id row rfl hprev
    | false => simpa using SelectionMapInv.erase prev row.id hprev

theorem selection_ops_preserve_id_key_inv_witness :
    SelectionMapInv (onSelectionChange [sampleArtwork] [sampleArtwork] emptySelectionMap)
    ∧ SelectionMapInv (onSelectAllPage [sampleArtwork] emptySelectionMap)
    ∧ SelectionMapInv (onDeselectAllPage [sampleArtwork] emptySelectionMap)
    ∧ SelectionMapInv (removeFromSelection 3 emptySelectionMap)
    ∧ SelectionMapInv (toggleRow sampleArtwork2 true emptySelectionMap) :=
  selection_ops_preserve_id_key_inv [sampleArtwork] [sampleArtwork] emptySelectionMap
    sampleArtwork2 true 3 (fun _ _ h => Option.noConfusion h)

/-! ### The fetch adapter: normalization and error behaviour -/

theorem optOpt_getD_none_eq_join {α : Type} (t : Option (Option α)) :
    t.getD none = t.join := by
  cases t <;> rfl

theorem normalizeRaw_eq_spec (d : RawArtwork) : normalizeRaw d = normalizeSpec d := by
  simp [normalizeRaw, normalizeSpec, optOpt_getD_none_eq_join]

/-- C5: `fetchArtworksPage` normalizes every successful response into a
typed list: each raw record maps to an `Artwork` with the raw id and the
raw field values with undefined/null replaced by null, a missing `data`
array yields no items, `total` is `pagination.total` defaulting to 0 and
`per_page` is `pagination.limit` defaulting to the requested limit. -/
theorem fetchArtworksPage_normalizes (res : HttpResponse) (limit : Int)
    (h : res.ok = true) :
    ∃ r, fetchArtworksPage res limit = Except.ok r
      ∧ (∀ i : Nat, r.items[i]? = ((res.json.data.getD [])[i]?).map normalizeSpec)
      ∧ (res.json.data = none → r.items = [])
      ∧ (res.json.pagination = none → r.total = 0 ∧ r.per_page = limit)
      ∧ (∀ pg, res.json.pagination = some pg →
          (pg.total.join = none → r.total = 0)
          ∧ (∀ t, pg.total.join = some t → r.total = t)
          ∧ (pg.limit.join = none → r.per_page = limit)
          ∧ (∀ pl, pg.limit.join = some pl → r.per_page = pl)) := by
  unfold fetchArtworksPage
  rw [if_neg (by simp [h])]
  refine ⟨_, rfl, ?_, ?_, ?_, ?_⟩
  · intro i
    rw [List.getElem?_map]
    have hfn : normalizeRaw = normalizeSpec := funext normalizeRaw_eq_spec
    rw [hfn]
  · intro hd
    rw [hd]
    rfl
  · intro hp
    rw [hp]
    exact ⟨rfl, rfl⟩
  · intro pg hpg
    rw [hpg]
    have hjoin : ∀ {α : Type} (t : Option (Option α)), t.join = t.getD none :=
      fun t => (optOpt_getD_none_eq_join t).symm
    refine ⟨?_, ?_, ?_, ?_⟩
    · intro ht
      rw [hjoin] at ht
      simp only [chainField]
      rw [hjoin, ht]
      rfl
    · intro t ht
      rw [hjoin] at ht
      simp only [chainField]
      rw [hjoin, ht]
      rfl
    · intro hl
      rw [hjoin] at hl
      simp only [chainField]
      rw [hjoin, hl]
      rfl
    · intro pl hl
      rw [hjoin] at hl
      simp only [chainField]
      rw [hjoin, hl]
      rfl

/-- A concrete raw record exercising present, null and absent fields. -/
def sampleRawArtwork : RawArtwork :=
  { id := 5, title := some (some "T"), place_of_origin := some none,
    artist_display := none, inscriptions := none, date_start := some (some 1800),
    date_end := none }

/-- A concrete successful API response. -/
def sampleResponse : HttpResponse :=
  { ok := true,
    json := { data := some [sampleRawArtwork],
              pagination := some { total := some (some 120), limit := none } } }

theorem fetchArtworksPage_normalizes_witness :
    ∃ r, fetchArtworksPage sampleResponse 10 = Except.ok r
      ∧ (∀ i : Nat, r.items[i]? = ((sampleResponse.json.data.getD [])[i]?).map normalizeSpec)
      ∧ (sampleResponse.json.data = none → r.items = [])
      ∧ (sampleResponse.json.pagination = none → r.total = 0 ∧ r.per_page = 10)
      ∧ (∀ pg, sampleResponse.json.pagination = some pg →
          (pg.total.join = none → r.total = 0)
          ∧ (∀ t, pg.total.join = some t → r.total = t)
          ∧ (pg.limit.join = none → r.per_page = 10)
          ∧ (∀ pl, pg.limit.join = some pl → r.per_page = pl)) :=
  fetchArtworksPage_normalizes sampleResponse 10 rfl

/-- C10: the adapter throws exactly the error `Failed to fetch artworks`,
and exactly when the response is not ok; every ok response yields a
normalized result without raising. -/
theorem fetch_throws_iff_not_ok (res : HttpResponse) (limit : Int) :
    (fetchArtworksPage res limit = Except.error "Failed to fetch artworks" ↔
      res.ok = false)
    ∧ (∀ msg, fetchArtworksPage res limit = Except.error msg →
        msg = "Failed to fetch artworks")
    ∧ (res.ok = true → ∃ r, fetchArtworksPage res limit = Except.ok r) := by
  cases hok : res.ok with
  | false =>
    have hfe : fetchArtworksPage res limit = Except.error "Failed to fetch artworks" := by
      unfold fetchArtworksPage
      rw [if_pos hok]
    refine ⟨by simp [hfe, hok], ?_, ?_⟩
    · intro msg hmsg
      rw [hfe] at hmsg
      injection hmsg with h2
      exact h2.symm
    · intro htrue
      exact Bool.noConfusion htrue
  | true =>
    have hfo : fetchArtworksPage res limit =
        Except.ok
          { items := (res.json.data.getD []).map normalizeRaw,
            total := (chainField res.json.pagination (fun pg => pg.total)).getD 0,
            per_page := (chainField res.json.pagination (fun pg => pg.limit)).getD limit } := by
      unfold fetchArtworksPage
      rw [if_neg (by simp [hok])]
    refine ⟨by simp [hfo, hok], ?_, ?_⟩
    · intro msg hmsg
      rw [hfo] at hmsg
      exact Except.noConfusion hmsg
    · intro _
      exact ⟨_, hfo⟩

theorem fetch_throws_iff_not_ok_witness :
    (fetchArtworksPage { ok := false, json := sampleResponse.json } 10 =
        Except.error "Failed to fetch artworks" ↔
      ({ ok := false, json := sampleResponse.json } : HttpResponse).ok = false)
    ∧ (∀ msg, fetchArtworksPage { ok := false, json := sampleResponse.json } 10 =
          Except.error msg → msg = "Failed to fetch artworks")
    ∧ (({ ok := false, json := sampleResponse.json } : HttpResponse).ok = true →
        ∃ r, fetchArtworksPage { ok := false, json := sampleResponse.json } 10 =
          Except.ok r) :=
  fetch_throws_iff_not_ok { ok := false, json := sampleResponse.json } 10

/-! ### Decimal strings: `Nat.repr` round-trips through `String.toNat?` -/

/-- The decimal digit characters of `n`, most significant first: the
reference shape of `Nat.toDigits 10 n`. -/
def decChars (n : Nat) : List Char :=
  if n < 10 then [Nat.digitChar n]
  else decChars (n / 10) ++ [Nat.digitChar (n % 10)]
termination_by n
decreasing_by exact Nat.div_lt_self (by omega) (by omega)

theorem digitChar_props :
    ∀ m : Fin 10, (Nat.digitChar m).isDigit = true
      ∧ (Nat.digitChar m).toNat - '0'.toNat = (m : Nat) := by
  decide

theorem digitChar_isDigit (m : Nat) (h : m < 10) : (Nat.digitChar m).isDigit = true :=
  (digitChar_props ⟨m, h⟩).1

theorem digitChar_val (m : Nat) (h : m < 10) :
    (Nat.digitChar m).toNat - '0'.toNat = m :=
  (digitChar_props ⟨m, h⟩).2

theorem toDigitsCore_eq_decChars :
    ∀ (f n : Nat) (ds : List Char), n < f →
      Nat.toDigitsCore 10 f n ds = decChars n ++ ds := by
  intro f
  induction f with
  | zero => intro n ds h; omega
  | succ f ih =>
    intro n ds h
    by_cases h10 : n < 10
    · have hdiv : n / 10 = 0 := Nat.div_eq_of_lt h10
      have hmod : n % 10 = n := Nat.mod_eq_of_lt h10
      simp only [Nat.toDigitsCore, hdiv, hmod, ite_true]
      rw [decChars, if_pos h10]
      rfl
    · have hdiv : ¬n / 10 = 0 := by
        intro hz
        rw [Nat.div_eq_zero_iff (by omega)] at hz
        exact h10 hz
      have hlt : n / 10 < f :=
        Nat.lt_of_lt_of_le (Nat.div_lt_self (by omega) (by omega)) (Nat.lt_succ_iff.mp h)
      simp only [Nat.toDigitsCore, hdiv, ite_false]
      rw [ih (n / 10) (Nat.digitChar (n % 10) :: ds) hlt]
      conv_rhs => rw [decChars, if_neg h10]
      rw [List.append_assoc]
      rfl

theorem toDigits_eq_decChars (n : Nat) : Nat.toDigits 10 n = decChars n := by
  rw [Nat.toDigits, toDigitsCore_eq_decChars (n + 1) n [] (Nat.lt_succ_self n),
    List.append_nil]

theorem decChars_all_digit (n : Nat) : ∀ c ∈ decChars n, c.isDigit = true := by
  induction n using Nat.strong_induction_on with
  | _ n ih =>
    by_cases h : n < 10
    · rw [decChars, if_pos h]
      intro c hc
      rw [List.mem_singleton] at hc
      rw [hc]
      exact digitChar_isDigit n h
    · rw [decChars, if_neg h]
      intro c hc
      rcases List.mem_append.mp hc with h1 | h2
      · exact ih (n / 10) (Nat.div_lt_self (by omega) (by omega)) c h1
      · rw [List.mem_singleton] at h2
        rw [h2]
        exact digitChar_isDigit (n % 10) (Nat.mod_lt n (by omega))

theorem decChars_ne_nil (n : Nat) : decChars n ≠ [] := by
  by_cases h : n < 10
  · rw [decChars, if_pos h]
    simp
  · rw [decChars, if_neg h]
    simp

theorem decChars_foldl (n : Nat) : ∀ a : Nat,
    (decChars n).foldl (fun r c => r * 10 + (c.toNat - '0'.toNat)) a =
      a * 10 ^ (decChars n).length + n := by
  induction n using Nat.strong_induction_on with
  | _ n ih =>
    intro a
    by_cases h : n < 10
    · rw [decChars, if_pos h]
      simp only [List.foldl_cons, List.foldl_nil, List.length_cons, List.length_nil,
        pow_one, Nat.zero_add]
      rw [digitChar_val n h]
    · rw [decChars, if_neg h]
      rw [List.foldl_append]
      rw [ih (n / 10) (Nat.div_lt_self (by omega) (by omega)) a]
      simp only [List.foldl_cons, List.foldl_nil, List.length_append, List.length_cons,
        List.length_nil, Nat.zero_add]
      rw [digitChar_val (n % 10) (Nat.mod_lt n (by omega))]
      have hdm : n / 10 * 10 + n % 10 = n := by omega
      rw [pow_succ]
      calc (a * 10 ^ (decChars (n / 10)).length + n / 10) * 10 + n % 10
          = a * (10 ^ (decChars (n / 10)).length * 10) + (n / 10 * 10 + n % 10) := by ring
        _ = a * (10 ^ (decChars (n / 10)).length * 10) + n := by rw [hdm]

theorem toNat?_repr (n : Nat) : String.toNat? (Nat.repr n) = some n := by
  have hrepr : Nat.repr n = (decChars n).asString := by
    rw [Nat.repr, toDigits_eq_decChars]
  rw [hrepr]
  have hempty : ((decChars n).asString).isEmpty = false := by
    rw [Bool.eq_false_iff]
    intro hemp
    have hs : (decChars n).asString = "" := (String.isEmpty_iff _).mp hemp
    have hd : decChars n = [] := by
      have := congrArg String.data hs
      simpa using this
    exact decChars_ne_nil n hd
  have hall : ((decChars n).asString).all (fun c => c.isDigit) = true := by
    rw [String.all_eq]
    rw [List.all_eq_true]
    intro c hc
    exact decChars_all_digit n c hc
  have hnat : ((decChars n).asString).isNat = true := by
    unfold String.isNat
    rw [hempty, hall]
    rfl
  unfold String.toNat?
  rw [if_pos hnat]
  congr 1
  rw [String.foldl_eq]
  have := decChars_foldl n 0
  simpa using this

/-! ### The persistence round trip -/

theorem artwork_fromJson_toJson (a : Artwork) :
    Artwork.fromJson? (Artwork.toJson a) = some a := by
  obtain ⟨id, title, place, artist, ins, ds, de⟩ := a
  have hid : ¬((id : Int) < 0) := by omega
  cases title <;> cases place <;> cases artist <;> cases ins <;> cases ds <;> cases de <;>
    simp [Artwork.toJson, Artwork.fromJson?, encOptStr, encOptInt, decNat, decOptStr,
      decOptInt, hid]

theorem parseSelection_stringify (m : SelectionMap) :
    parseSelection (stringifySelection m) = some m := by
  have key : ∀ l : List (Nat × Artwork),
      (l.map (fun kv => (Nat.repr kv.1, Artwork.toJson kv.2))).mapM
        (fun kv => do
          let k ← String.toNat? kv.1
          let a ← Artwork.fromJson? kv.2
          pure (k, a)) = some l := by
    intro l
    induction l with
    | nil => rfl
    | cons kv rest ih =>
      obtain ⟨k, v⟩ := kv
      rw [List.map_cons, List.mapM_cons, ih]
      simp [toNat?_repr k, artwork_fromJson_toJson v]
  simp only [stringifySelection, parseSelection]
  exact key m

/-- C4: persisting the selection map under the storage key and loading it
back yields the same selection map, so the cross-page selection survives a
reload. -/
theorem selection_persistence_roundtrip (store : String → Option Json) (m : SelectionMap) :
    loadEffect (persistEffect store m) = some m := by
  have hstore : persistEffect store m STORAGE_KEY = some (stringifySelection m) := by
    unfold persistEffect
    rw [if_pos rfl]
  unfold loadEffect
  rw [hstore]
  exact parseSelection_stringify m
